import Mathlib

/-!
Verification of the clark-package-automator script (src/main.py).

The program is a single-pass orchestrator: load configuration from the
environment, connect to an IMAP mailbox, search unread messages from a fixed
sender, and for each message fetch it (peek), extract the HTML body, parse a
tracking number, submit a web form, and mark the message read on success;
finally close and log out.

The shallow embedding below mirrors the Python source function by function.
External effects (IMAP calls, charset decoding, BeautifulSoup parsing of raw
HTML text, the browser) are modelled as explicit parameters; the control flow
and all pure computation (missing-key collection, tag search, sibling
trimming, walk order, decode fallback, loop skipping and read-marking) follow
the source.
-/

namespace Clark

/-! ## String utilities

Python compares strings by code point (`sorted`), uppercases for the marker
test (`text.upper()`), and trims with `strip()`. We model these with
code-point lexicographic comparison, `String.toUpper`, and `String.trim`.
-/

/-- Code-point lexicographic `≤` on char lists, as Python compares strings. -/
def lexLe : List Char → List Char → Bool
  | [], _ => true
  | _ :: _, [] => false
  | a :: as, b :: bs =>
    if a.val < b.val then true
    else if b.val < a.val then false
    else lexLe as bs

/-- String comparison by code points (Python `<=` on `str`). -/
def strLe (a b : String) : Bool := lexLe a.toList b.toList

/-- Insert a string into a sorted list (helper for `sortStrings`). -/
def insertSorted (s : String) : List String → List String
  | [] => [s]
  | t :: rest => if strLe s t then s :: t :: rest else t :: insertSorted s rest

/-- Python `sorted` on a list of strings (insertion sort; order by code point). -/
def sortStrings : List String → List String
  | [] => []
  | s :: rest => insertSorted s (sortStrings rest)

/-- Python `", ".join(l)`. -/
def joinComma : List String → String
  | [] => ""
  | [s] => s
  | s :: rest => s ++ ", " ++ joinComma rest

/-- Does `hay` start with `needle` (char lists)? -/
def matchesFront : List Char → List Char → Bool
  | [], _ => true
  | _ :: _, [] => false
  | a :: as, b :: bs => a = b && matchesFront as bs

/-- Substring containment on char lists (Python `needle in hay`). -/
def containsAt (needle : List Char) : List Char → Bool
  | [] => needle.isEmpty
  | c :: rest => matchesFront needle (c :: rest) || containsAt needle rest

/-- Python `needle in hay` on strings. -/
def strContains (hay needle : String) : Bool :=
  containsAt needle.toList hay.toList

/-- Python `text.upper()` (code-point uppercasing; the marker and tracking
texts are ASCII). -/
def strUpper (s : String) : String :=
  ⟨s.toList.map Char.toUpper⟩

/-- Is `c` whitespace for Python `str.strip()`? -/
def isSpaceChar (c : Char) : Bool :=
  c = ' ' || c = '\t' || c = '\n' || c = '\r' ||
  c = Char.ofNat 11 || c = Char.ofNat 12

/-- Drop leading whitespace from a char list. -/
def dropSpaceFront : List Char → List Char
  | [] => []
  | c :: rest => if isSpaceChar c then dropSpaceFront rest else c :: rest

/-- Python `s.strip()`: remove whitespace from both ends. -/
def strTrim (s : String) : String :=
  ⟨(dropSpaceFront (dropSpaceFront s.toList).reverse).reverse⟩

/-! ## Configuration loader (`load_config`, src/main.py lines 44-80)

The eight environment variables are read with `os.getenv` (an `Option
String`); a value is missing when it is `None` or empty (`not value`).
`missing` is collected by a comprehension over the `env_map` dict in insertion
order, then sorted and joined into the error message.
-/

/-- The process environment restricted to the eight variables `load_config`
reads; `none` models an unset variable. -/
structure EnvMap where
  IMAP_SERVER : Option String
  EMAIL_ADDRESS : Option String
  EMAIL_APP_PASSWORD : Option String
  SENDER_ADDRESS : Option String
  FORM_URL : Option String
  FIRST_NAME : Option String
  LAST_NAME : Option String
  ROOM_NUMBER : Option String
deriving DecidableEq

/-- Python truthiness test `not value` on an optional string. -/
def isBlank : Option String → Bool
  | none => true
  | some s => s = ""

/-- The `env_map` dict of `load_config`, in its insertion order:
dataclass field name paired with the value read from the environment. -/
def envPairs (e : EnvMap) : List (String × Option String) :=
  [("imap_server", e.IMAP_SERVER),
   ("email_address", e.EMAIL_ADDRESS),
   ("email_password", e.EMAIL_APP_PASSWORD),
   ("sender_address", e.SENDER_ADDRESS),
   ("form_url", e.FORM_URL),
   ("first_name", e.FIRST_NAME),
   ("last_name", e.LAST_NAME),
   ("room_number", e.ROOM_NUMBER)]

/-- `missing = [name for name, value in env_map.items() if not value]`. -/
def missingNames (e : EnvMap) : List String :=
  ((envPairs e).filter (fun p => isBlank p.2)).map Prod.fst

/-- The frozen `Config` dataclass. -/
structure Config where
  imap_server : String
  email_address : String
  email_password : String
  sender_address : String
  form_url : String
  first_name : String
  last_name : String
  room_number : String
deriving DecidableEq

/-- The `Config.user_info` property: the three identity fields keyed by
form-field name, in the source's insertion order. -/
def Config.userInfo (c : Config) : List (String × String) :=
  [("FIRST_NAME", c.first_name),
   ("LAST_NAME", c.last_name),
   ("ROOM_NUMBER", c.room_number)]

/-- The error message `load_config` raises:
`"Missing required configuration values: " + ", ".join(sorted(missing))`. -/
def missingMessage (names : List String) : String :=
  "Missing required configuration values: " ++ joinComma (sortStrings names)

/-- `load_config` (src/main.py lines 44-80): collect missing names; if any,
raise `ValueError` with the message listing all of them sorted; otherwise
build the `Config` from exactly the environment values. -/
def load_config (e : EnvMap) : Except String Config :=
  if missingNames e ≠ [] then
    .error (missingMessage (missingNames e))
  else
    .ok { imap_server := (e.IMAP_SERVER).getD ""
          email_address := (e.EMAIL_ADDRESS).getD ""
          email_password := (e.EMAIL_APP_PASSWORD).getD ""
          sender_address := (e.SENDER_ADDRESS).getD ""
          form_url := (e.FORM_URL).getD ""
          first_name := (e.FIRST_NAME).getD ""
          last_name := (e.LAST_NAME).getD ""
          room_number := (e.ROOM_NUMBER).getD "" }

/-- The `Config` the success branch of `load_config` builds. -/
def mkConfig (e : EnvMap) : Config :=
  { imap_server := (e.IMAP_SERVER).getD ""
    email_address := (e.EMAIL_ADDRESS).getD ""
    email_password := (e.EMAIL_APP_PASSWORD).getD ""
    sender_address := (e.SENDER_ADDRESS).getD ""
    form_url := (e.FORM_URL).getD ""
    first_name := (e.FIRST_NAME).getD ""
    last_name := (e.LAST_NAME).getD ""
    room_number := (e.ROOM_NUMBER).getD "" }

/-! ## Tracking-number parsing (`parse_package_info`, src/main.py lines 145-160)

The HTML document produced by `BeautifulSoup(email_html, "lxml")` is modelled
as the list, in document order, of the element nodes `soup.find` iterates
over.  For each node we keep what the source consults: its tag name, its
`.string` (which is `None` for a tag without a unique string child — such a
tag is never matched by a `string=` filter), and `str(tag.next_sibling)` when
a next sibling exists.  `soup.find("strong", string=f)` is the first node
whose tag name equals `"strong"` and whose `.string` is a non-`None` match of
`f`; note the tag name passed in the source is exactly `"strong"`, so `<b>`
elements are never candidates.
-/

/-- One element node of the parsed HTML document. -/
structure HtmlNode where
  /-- The tag name as parsed (e.g. `"strong"`, `"b"`, `"p"`). -/
  tag : String
  /-- The node's `.string`: `none` when the tag has no unique string child. -/
  str : Option String
  /-- `str(tag.next_sibling)` when the node has a next sibling, else `none`. -/
  nextSibling : Option String
deriving DecidableEq

/-- A parsed HTML document: its element nodes in `soup.find` order. -/
abbrev HtmlDoc := List HtmlNode

/-- The `string=` filter of the source:
`lambda text: text and "TRACKING NO:" in text.upper()`. -/
def markerMatch : Option String → Bool
  | none => false
  | some t => (t ≠ "") && strContains (strUpper t) "TRACKING NO:"

/-- The predicate of `soup.find("strong", string=...)`: tag name `"strong"`
and the `string=` filter on the node's `.string`. -/
def isTrackingTag (n : HtmlNode) : Bool :=
  n.tag = "strong" && markerMatch n.str

/-- The parsed package info dict `{"tracking_id": ...}`. -/
structure PackageInfo where
  tracking_id : String
deriving DecidableEq

/-- `str(tracking_sibling).strip() if tracking_sibling else ""` of the
source: empty when the node has no next sibling or the sibling is falsy
(the empty string), otherwise the sibling text stripped. -/
def trimmedSibling (n : HtmlNode) : String :=
  match n.nextSibling with
  | some s => if s = "" then "" else strTrim s
  | none => ""

/-- `parse_package_info` (src/main.py lines 145-160): find the first
`<strong>` node whose string contains `"TRACKING NO:"` case-insensitively;
take `str(next_sibling).strip()` (empty when there is no sibling or the
sibling is falsy); return `None` when the tag is absent or the trimmed text
is empty. -/
def parse_package_info (doc : HtmlDoc) : Option PackageInfo :=
  match List.find? isTrackingTag doc with
  | none => none
  | some tag =>
    let trackingNumber := trimmedSibling tag
    if trackingNumber = "" then none else some ⟨trackingNumber⟩

/-- A bold (`<b>`) or strong (`<strong>`) node carrying the marker — the
"bold/strong text node" family the specification describes.  The source's
`soup.find("strong", ...)` only ever inspects the `"strong"` half. -/
def isBoldOrStrongMarker (n : HtmlNode) : Bool :=
  (n.tag = "strong" || n.tag = "b") && markerMatch n.str

/-! ## HTML body extraction (`extract_html_body`, src/main.py lines 127-142)

An email `Message` is a leaf part (content type, declared charset as
`get_content_charset()` returns it, raw payload bytes) or a multipart
container.  `message.walk()` yields the message itself and then, recursively,
each subpart's walk.  Decoding a payload under a charset is an external
capability: it is a parameter `dec` returning `none` exactly when Python
raises `LookupError` (unknown encoding) or `UnicodeDecodeError`; the
`errors="replace"` UTF-8 fallback is a total parameter `u8r`. -/

/-- An email message: a leaf part or a multipart container. -/
inductive EmailMessage where
  | leaf (contentType : String) (charset : Option String) (payload : List Nat)
  | multi (contentType : String) (parts : List EmailMessage)

/-- `message.get_content_type()`. -/
def getContentType : EmailMessage → String
  | .leaf ct _ _ => ct
  | .multi ct _ => ct

/-- `message.get_content_charset()` (containers carry no charset here; the
claims only concern leaf HTML parts). -/
def getCharset : EmailMessage → Option String
  | .leaf _ cs _ => cs
  | .multi _ _ => none

/-- The raw payload bytes of a leaf part (`get_payload(decode=True)`); a
container payload is not modelled (on a container the source's `.decode`
call would itself fail, outside every claim's scope). -/
def getPayloadBytes : EmailMessage → List Nat
  | .leaf _ _ p => p
  | .multi _ _ => []

/-- Is this message a leaf (non-container) part? -/
def isLeafPart : EmailMessage → Bool
  | .leaf _ _ _ => true
  | .multi _ _ => false

/-- `message.is_multipart()`. -/
def is_multipart : EmailMessage → Bool
  | .leaf _ _ _ => false
  | .multi _ _ => true

/-- `message.walk()`: the message itself, then each part's walk, in order. -/
def walk : EmailMessage → List EmailMessage
  | .leaf ct cs p => [.leaf ct cs p]
  | .multi ct parts => .multi ct parts :: walkAll parts
where
  /-- Concatenated walks of a part list. -/
  walkAll : List EmailMessage → List EmailMessage
  | [] => []
  | p :: rest => walk p ++ walkAll rest

/-- `part.get_content_charset() or "utf-8"`: Python `or` replaces both `None`
and the empty string. -/
def effectiveCharset (cs : Option String) : String :=
  match cs with
  | none => "utf-8"
  | some c => if c = "" then "utf-8" else c

/-- The `try/except` decode of one HTML part: decode under the effective
charset, falling back to the permissive UTF-8 decode when the charset is
unknown or decoding fails. -/
def decodePart (dec : String → List Nat → Option String)
    (u8r : List Nat → String) (cs : Option String) (payload : List Nat) :
    String :=
  match dec (effectiveCharset cs) payload with
  | some s => s
  | none => u8r payload

/-- `extract_html_body` (src/main.py lines 127-142): for a multipart message
walk the parts and return the first `text/html` part decoded; for a
non-multipart message apply the same test and decode to the message itself;
`None` when no HTML part exists. -/
def extract_html_body (dec : String → List Nat → Option String)
    (u8r : List Nat → String) : EmailMessage → Option String
  | .multi ct parts =>
    match List.find? (fun p => getContentType p = "text/html")
        (walk (.multi ct parts)) with
    | some p => some (decodePart dec u8r (getCharset p) (getPayloadBytes p))
    | none => none
  | .leaf ct cs payload =>
    if ct = "text/html" then some (decodePart dec u8r cs payload) else none

/-! ## Orchestrator (`check_for_new_packages`, src/main.py lines 191-246)

External behaviour per message id is captured by `MsgEnv`: the outcome of the
`BODY.PEEK` fetch (`none` models a failed fetch, which `get_message` turns
into `None`; peek semantics mean no flag is changed), whether
`submit_package_form` returns without raising, and whether the
`mail.store(id, "+FLAGS", Seen)` call returns without raising.  The run-level
environment `OrchEnv` adds the process environment, the connect and search
outcomes, the search's id list, the close/logout outcomes, and the three
external pure capabilities (charset decode, UTF-8-replace decode, and
BeautifulSoup's text-to-document parse `soup`). -/

/-- External behaviour of one message id during a run. -/
structure MsgEnv where
  /-- Result of the peek fetch: the parsed message, or `none` on failure. -/
  fetched : Option EmailMessage
  /-- Does `submit_package_form` return without raising? -/
  submitOk : Bool
  /-- Does the `mail.store` Seen-flag call return without raising? -/
  storeOk : Bool

/-- What the loop body did for one processed message. -/
inductive StepResult where
  /-- A `continue`: fetch failed, no HTML body, no tracking number, or the
  form submission raised.  No store call is made. -/
  | skipped
  /-- Submission succeeded and the Seen-flag store call returned. -/
  | marked
  /-- Submission succeeded but the Seen-flag store call raised; the
  exception leaves the loop. -/
  | storeRaised
deriving DecidableEq

/-- The loop body of `check_for_new_packages` for one message (src/main.py
lines 214-239), given the run's decode and soup capabilities. -/
def stepOf (dec : String → List Nat → Option String) (u8r : List Nat → String)
    (soup : String → HtmlDoc) (e : MsgEnv) : StepResult :=
  match e.fetched with
  | none => .skipped
  | some msg =>
    match extract_html_body dec u8r msg with
    | none => .skipped
    | some htmlBody =>
      match parse_package_info (soup htmlBody) with
      | none => .skipped
      | some _ =>
        if e.submitOk then
          if e.storeOk then .marked else .storeRaised
        else .skipped

/-- Does the loop body reach the `mail.store` call for this message, i.e.
does the whole fetch → extract → parse → submit pipeline succeed? -/
def submitSucceeds (dec : String → List Nat → Option String)
    (u8r : List Nat → String) (soup : String → HtmlDoc) (e : MsgEnv) : Bool :=
  match e.fetched with
  | none => false
  | some msg =>
    match extract_html_body dec u8r msg with
    | none => false
    | some htmlBody =>
      match parse_package_info (soup htmlBody) with
      | none => false
      | some _ => e.submitOk

/-- Was the Seen-flag store call performed for a step outcome? -/
def storePerformed : StepResult → Bool
  | .skipped => false
  | .marked => true
  | .storeRaised => true

/-- The `for message_id in message_ids` loop: outcomes of the processed
messages in order, and whether an uncaught store exception aborted the loop
(`continue` outcomes keep going; a raising store call stops at that
message). -/
def runLoop (dec : String → List Nat → Option String)
    (u8r : List Nat → String) (soup : String → HtmlDoc) :
    List MsgEnv → List StepResult × Bool
  | [] => ([], false)
  | e :: rest =>
    let r := stepOf dec u8r soup e
    if r = .storeRaised then ([.storeRaised], true)
    else
      let tail := runLoop dec u8r soup rest
      (r :: tail.1, tail.2)

/-- An error escaping `check_for_new_packages` (config and connect errors
are caught and logged; these are not). -/
inductive RunError where
  /-- `RuntimeError` from a non-OK search status. -/
  | searchFailed
  /-- The uncaught exception of a raising `mail.store` call. -/
  | storeFailed
  /-- An exception from `mail.logout()` in the `finally` block. -/
  | logoutFailed
deriving DecidableEq

/-- The run-level environment of one invocation. -/
structure OrchEnv where
  /-- The process environment read by `load_config`. -/
  env : EnvMap
  /-- Does `connect_mailbox` succeed (login and INBOX select)? -/
  connectOk : Bool
  /-- Does the IMAP search return status `"OK"`? -/
  searchOk : Bool
  /-- The message ids the search returns, in server order. -/
  messageIds : List Nat
  /-- Per-id external behaviour. -/
  perMsg : Nat → MsgEnv
  /-- Does `mail.close()` return without raising? -/
  closeOk : Bool
  /-- Does `mail.logout()` return without raising? -/
  logoutOk : Bool
  /-- Charset decode capability: `none` models `LookupError` or
  `UnicodeDecodeError`. -/
  dec : String → List Nat → Option String
  /-- The permissive `decode("utf-8", errors="replace")`. -/
  u8r : List Nat → String
  /-- `BeautifulSoup(html, "lxml")`. -/
  soup : String → HtmlDoc

/-- Observable outcome of one invocation of `check_for_new_packages`. -/
structure OrchResult where
  /-- Did `load_config` succeed? -/
  configOk : Bool
  /-- Was `connect_mailbox` called (the first external contact)? -/
  connectAttempted : Bool
  /-- Was the connection established? -/
  connected : Bool
  /-- Was the IMAP search issued? -/
  searchAttempted : Bool
  /-- Outcomes of the processed messages, in processing order. -/
  outcomes : List StepResult
  /-- Was `mail.close()` called? -/
  closeAttempted : Bool
  /-- Was `mail.logout()` called? -/
  logoutAttempted : Bool
  /-- The error escaping the call, if any. -/
  escaped : Option RunError
deriving DecidableEq

/-- The `finally` block (src/main.py lines 241-246): `mail.close()` inside
`try/except Exception: pass`, then `mail.logout()` unguarded.  A logout
exception escapes, replacing any in-flight exception; otherwise the in-flight
exception (if any) continues to propagate. -/
def cleanupEscaped (logoutOk : Bool) (inflight : Option RunError) :
    Option RunError :=
  if logoutOk then inflight else some .logoutFailed

/-- `check_for_new_packages` (src/main.py lines 191-246): config errors are
caught and logged (no external contact); connect errors are caught and
logged; then under `try/finally`, search (a non-OK status raises), an empty
id list returns early, otherwise the per-message loop runs; the `finally`
block always closes (errors swallowed) and logs out (errors escape). -/
def check_for_new_packages (o : OrchEnv) : OrchResult :=
  match load_config o.env with
  | .error _ =>
    { configOk := false, connectAttempted := false, connected := false
      searchAttempted := false, outcomes := [], closeAttempted := false
      logoutAttempted := false, escaped := none }
  | .ok _ =>
    if ¬ o.connectOk then
      { configOk := true, connectAttempted := true, connected := false
        searchAttempted := false, outcomes := [], closeAttempted := false
        logoutAttempted := false, escaped := none }
    else if ¬ o.searchOk then
      { configOk := true, connectAttempted := true, connected := true
        searchAttempted := true, outcomes := [], closeAttempted := true
        logoutAttempted := true
        escaped := cleanupEscaped o.logoutOk (some .searchFailed) }
    else
      let loopOut := runLoop o.dec o.u8r o.soup (o.messageIds.map o.perMsg)
      { configOk := true, connectAttempted := true, connected := true
        searchAttempted := true, outcomes := loopOut.1
        closeAttempted := true, logoutAttempted := true
        escaped := cleanupEscaped o.logoutOk
          (if loopOut.2 then some .storeFailed else none) }

/-- The same run environment with the `mail.close()` outcome replaced —
used to state that a close failure never changes what escapes the run. -/
def withCloseOk (o : OrchEnv) (b : Bool) : OrchEnv :=
  ⟨o.env, o.connectOk, o.searchOk, o.messageIds, o.perMsg, b, o.logoutOk,
   o.dec, o.u8r, o.soup⟩

/-! ## Helper lemmas -/

/-- `List.find?` over a junction: when nothing before `n` matches and `n`
does, the search returns `n`. -/
lemma find_of_front_none {α : Type} (p : α → Bool) (pre : List α) (n : α)
    (post : List α) (hpre : ∀ m ∈ pre, p m = false) (hn : p n = true) :
    List.find? p (pre ++ n :: post) = some n := by
  induction pre with
  | nil => simp [List.find?, hn]
  | cons a rest ih =>
    have ha : p a = false := hpre a (by simp)
    simp only [List.cons_append, List.find?, ha]
    exact ih (fun m hm => hpre m (by simp [hm]))

/-- Membership is preserved by `insertSorted`. -/
lemma mem_insertSorted (x s : String) (l : List String) :
    x ∈ insertSorted s l ↔ x = s ∨ x ∈ l := by
  induction l with
  | nil => simp [insertSorted]
  | cons t rest ih =>
    by_cases h : strLe s t = true
    · simp [insertSorted, h]
    · simp only [insertSorted, h, if_neg, Bool.not_eq_true] at *
      simp [List.mem_cons, ih]
      tauto

/-- `sortStrings` is a permutation at the level of membership. -/
lemma mem_sortStrings (x : String) (l : List String) :
    x ∈ sortStrings l ↔ x ∈ l := by
  induction l with
  | nil => simp [sortStrings]
  | cons s rest ih => simp [sortStrings, mem_insertSorted, ih]

/-- A list starts with itself followed by anything. -/
lemma matchesFront_self_append (n t : List Char) :
    matchesFront n (n ++ t) = true := by
  induction n with
  | nil => simp [matchesFront]
  | cons c rest ih => simp [matchesFront, ih]

/-- A match at the front is a containment. -/
lemma containsAt_of_front (n h : List Char) (hm : matchesFront n h = true) :
    containsAt n h = true := by
  cases h with
  | nil =>
    cases n with
    | nil => simp [containsAt]
    | cons c rest => simp [matchesFront] at hm
  | cons c rest => simp [containsAt, hm]

/-- Containment survives prepending. -/
lemma containsAt_append_right (n h t : List Char)
    (hc : containsAt n t = true) : containsAt n (h ++ t) = true := by
  induction h with
  | nil => simpa using hc
  | cons c rest ih => simp [containsAt, ih]

/-- `String.toList` distributes over append. -/
lemma strToList_append (a b : String) :
    (a ++ b).toList = a.toList ++ b.toList := rfl

/-- Every element occurs as a substring of the comma join. -/
lemma strContains_joinComma (k : String) (l : List String) (hk : k ∈ l) :
    strContains (joinComma l) k = true := by
  induction l with
  | nil => simp at hk
  | cons s rest ih =>
    rcases List.mem_cons.mp hk with h | h
    · subst h
      cases rest with
      | nil =>
        simp only [joinComma, strContains]
        exact containsAt_of_front _ _ (by simpa using matchesFront_self_append k.toList [])
      | cons b bs =>
        simp only [joinComma, strContains, strToList_append]
        rw [List.append_assoc]
        exact containsAt_of_front _ _ (matchesFront_self_append _ _)
    · cases rest with
      | nil => simp at h
      | cons b bs =>
        simp only [joinComma, strContains, strToList_append] at *
        rw [List.append_assoc]
        exact containsAt_append_right _ _ _
          (containsAt_append_right _ _ _ (ih h))

/-- A blank entry of `env_map` puts its name into `missing`. -/
lemma mem_missingNames_of_blank (e : EnvMap) (k : String) (v : Option String)
    (hm : (k, v) ∈ envPairs e) (hb : isBlank v = true) :
    k ∈ missingNames e := by
  simp only [missingNames, List.mem_map, List.mem_filter]
  exact ⟨(k, v), ⟨hm, hb⟩, rfl⟩

/-- When `missing` is empty, every `env_map` entry is non-blank. -/
lemma blank_false_of_missingNil (e : EnvMap) (h : missingNames e = [])
    (k : String) (v : Option String) (hm : (k, v) ∈ envPairs e) :
    isBlank v = false := by
  by_contra hb
  rw [Bool.not_eq_false] at hb
  have := mem_missingNames_of_blank e k v hm hb
  simp [h] at this

/-- The success branch of `load_config`. -/
lemma load_config_eq_ok (e : EnvMap) (h : missingNames e = []) :
    load_config e = .ok (mkConfig e) := by
  simp [load_config, h, mkConfig]

/-- The failure branch of `load_config`. -/
lemma load_config_eq_error (e : EnvMap) (h : missingNames e ≠ []) :
    load_config e = .error (missingMessage (missingNames e)) := by
  simp [load_config, h]

/-- The searched tag predicate only accepts `<strong>` nodes, so it is
subsumed by the bold-or-strong family. -/
lemma bold_of_isTrackingTag (n : HtmlNode) (h : isTrackingTag n = true) :
    isBoldOrStrongMarker n = true := by
  simp only [isTrackingTag, Bool.and_eq_true, decide_eq_true_eq] at h
  simp [isBoldOrStrongMarker, h.1, h.2]

/-- `parse_package_info` at a document whose first matching `<strong>` node
is exhibited positionally. -/
lemma parse_package_info_at (pre post : List HtmlNode) (n : HtmlNode)
    (hpre : ∀ m ∈ pre, isTrackingTag m = false) (hn : isTrackingTag n = true) :
    parse_package_info (pre ++ n :: post) =
      if trimmedSibling n = "" then none else some ⟨trimmedSibling n⟩ := by
  simp [parse_package_info, find_of_front_none isTrackingTag pre n post hpre hn]

/-- `extract_html_body` on a multipart message whose first HTML part in walk
order is exhibited positionally. -/
lemma extract_html_body_multi_at (dec : String → List Nat → Option String)
    (u8r : List Nat → String) (ct : String) (parts : List EmailMessage)
    (pre post : List EmailMessage) (p : EmailMessage)
    (hwalk : walk (.multi ct parts) = pre ++ p :: post)
    (hpre : ∀ q ∈ pre, getContentType q ≠ "text/html")
    (hp : getContentType p = "text/html") :
    extract_html_body dec u8r (.multi ct parts) =
      some (decodePart dec u8r (getCharset p) (getPayloadBytes p)) := by
  have hfind :
      List.find? (fun q => getContentType q = "text/html")
        (walk (.multi ct parts)) = some p := by
    rw [hwalk]
    exact find_of_front_none _ pre p post
      (fun m hm => by simp [hpre m hm]) (by simp [hp])
  simp [extract_html_body, hfind]

/-- The store call is performed for a step exactly when the whole pipeline up
to and including the form submission succeeded. -/
lemma storePerformed_stepOf (dec : String → List Nat → Option String)
    (u8r : List Nat → String) (soup : String → HtmlDoc) (e : MsgEnv) :
    storePerformed (stepOf dec u8r soup e) = submitSucceeds dec u8r soup e := by
  unfold stepOf submitSucceeds
  cases hf : e.fetched with
  | none => rfl
  | some msg =>
    cases hx : extract_html_body dec u8r msg with
    | none => simp [hx, storePerformed]
    | some htmlBody =>
      cases hp : parse_package_info (soup htmlBody) with
      | none => simp [hx, hp, storePerformed]
      | some info =>
        by_cases hsub : e.submitOk = true
        · by_cases hst : e.storeOk = true <;>
            simp [hx, hp, hsub, hst, storePerformed]
        · simp only [Bool.not_eq_true] at hsub
          simp [hx, hp, hsub, storePerformed]

/-- A message whose Seen store does not raise never aborts the loop. -/
lemma stepOf_ne_raise_of_storeOk (dec : String → List Nat → Option String)
    (u8r : List Nat → String) (soup : String → HtmlDoc) (e : MsgEnv)
    (h : e.storeOk = true) : stepOf dec u8r soup e ≠ .storeRaised := by
  unfold stepOf
  cases hf : e.fetched with
  | none => simp
  | some msg =>
    cases hx : extract_html_body dec u8r msg with
    | none => simp [hx]
    | some htmlBody =>
      cases hp : parse_package_info (soup htmlBody) with
      | none => simp [hx, hp]
      | some info =>
        by_cases hsub : e.submitOk = true <;> simp [hx, hp, hsub, h]

/-- When no message's store raises, the loop processes the whole list in
order and every message contributes exactly its own step outcome. -/
lemma runLoop_no_raise (dec : String → List Nat → Option String)
    (u8r : List Nat → String) (soup : String → HtmlDoc) (envs : List MsgEnv)
    (h : ∀ e ∈ envs, stepOf dec u8r soup e ≠ .storeRaised) :
    runLoop dec u8r soup envs = (envs.map (stepOf dec u8r soup), false) := by
  induction envs with
  | nil => rfl
  | cons e rest ih =>
    have he : stepOf dec u8r soup e ≠ .storeRaised := h e (by simp)
    simp only [runLoop, if_neg he]
    rw [ih (fun x hx => h x (by simp [hx]))]
    rfl

/-- Each processed outcome of the loop is the step outcome of the message at
the same position. -/
lemma runLoop_fst_get? (dec : String → List Nat → Option String)
    (u8r : List Nat → String) (soup : String → HtmlDoc) :
    ∀ (envs : List MsgEnv) (i : Nat) (r : StepResult),
      (runLoop dec u8r soup envs).1.get? i = some r →
      ∃ e, envs.get? i = some e ∧ r = stepOf dec u8r soup e := by
  intro envs
  induction envs with
  | nil => intro i r hr; simp [runLoop] at hr
  | cons e rest ih =>
    intro i r hr
    by_cases hs : stepOf dec u8r soup e = .storeRaised
    · rw [show runLoop dec u8r soup (e :: rest) = ([.storeRaised], true) from
        by simp [runLoop, hs]] at hr
      rcases i with _ | j
      · refine ⟨e, rfl, ?_⟩
        simp at hr
        simp [← hr, hs]
      · simp at hr
    · rw [show (runLoop dec u8r soup (e :: rest)).1 =
          stepOf dec u8r soup e :: (runLoop dec u8r soup rest).1 from
        by simp [runLoop, hs]] at hr
      rcases i with _ | j
      · refine ⟨e, rfl, ?_⟩
        simp at hr
        simp [hr]
      · simp only [List.get?] at hr
        exact ih j r hr

/-- The loop up to the first store-raising message: everything before it is
processed normally, the raising message is last, and the loop reports the
abort. -/
lemma runLoop_raise_at (dec : String → List Nat → Option String)
    (u8r : List Nat → String) (soup : String → HtmlDoc) :
    ∀ (nAbort : Nat) (envs : List MsgEnv) (eAbort : MsgEnv),
      envs.get? nAbort = some eAbort →
      stepOf dec u8r soup eAbort = .storeRaised →
      (∀ i e, i < nAbort → envs.get? i = some e →
        stepOf dec u8r soup e ≠ .storeRaised) →
      runLoop dec u8r soup envs =
        ((envs.take nAbort).map (stepOf dec u8r soup) ++ [.storeRaised],
         true) := by
  intro nAbort
  induction nAbort with
  | zero =>
    intro envs eAbort hget hstep hprev
    cases envs with
    | nil => simp at hget
    | cons e rest =>
      simp at hget
      subst hget
      simp [runLoop, hstep]
  | succ m ih =>
    intro envs eAbort hget hstep hprev
    cases envs with
    | nil => simp at hget
    | cons e rest =>
      have he : stepOf dec u8r soup e ≠ .storeRaised :=
        hprev 0 e (Nat.succ_pos m) rfl
      have hget2 : rest.get? m = some eAbort := hget
      have htail := ih rest eAbort hget2 hstep
        (fun i x hi hx => hprev (i + 1) x (Nat.succ_lt_succ hi) hx)
      simp only [runLoop, if_neg he, htail, List.take, List.map]
      rfl

/-- A run with valid configuration, a live connection and an OK search
reaches the per-message loop and the cleanup. -/
lemma check_run (o : OrchEnv) (hc : missingNames o.env = [])
    (hk : o.connectOk = true) (hs : o.searchOk = true) :
    check_for_new_packages o =
      { configOk := true, connectAttempted := true, connected := true
        searchAttempted := true
        outcomes := (runLoop o.dec o.u8r o.soup (o.messageIds.map o.perMsg)).1
        closeAttempted := true, logoutAttempted := true
        escaped := cleanupEscaped o.logoutOk
          (if (runLoop o.dec o.u8r o.soup (o.messageIds.map o.perMsg)).2
           then some .storeFailed else none) } := by
  unfold check_for_new_packages
  rw [load_config_eq_ok o.env hc]
  simp [hk, hs]

/-- A non-blank optional value is `some` of its extracted content. -/
lemma some_getD_of_blank_false (v : Option String) (h : isBlank v = false) :
    v = some (v.getD "") := by
  cases v with
  | none => simp [isBlank] at h
  | some s => rfl

/-! ## Claims -/

/-- C3: for every assignment of the eight required environment values, if
any subset is absent or empty then `load_config` fails with an error whose
message contains every missing key, and the orchestrator makes no external
contact (no connect, no search, no message processed, nothing escapes); if
all eight are present and non-empty it returns the frozen `Config` built
from exactly those values. -/
theorem config_lists_all_missing_or_builds_exact (e : EnvMap) :
    (missingNames e = [] →
      load_config e = .ok (mkConfig e) ∧
      e.IMAP_SERVER = some (mkConfig e).imap_server ∧
      e.EMAIL_ADDRESS = some (mkConfig e).email_address ∧
      e.EMAIL_APP_PASSWORD = some (mkConfig e).email_password ∧
      e.SENDER_ADDRESS = some (mkConfig e).sender_address ∧
      e.FORM_URL = some (mkConfig e).form_url ∧
      e.FIRST_NAME = some (mkConfig e).first_name ∧
      e.LAST_NAME = some (mkConfig e).last_name ∧
      e.ROOM_NUMBER = some (mkConfig e).room_number) ∧
    (missingNames e ≠ [] →
      load_config e = .error (missingMessage (missingNames e)) ∧
      (∀ k v, (k, v) ∈ envPairs e → isBlank v = true →
        strContains (missingMessage (missingNames e)) k = true) ∧
      (∀ o : OrchEnv, o.env = e →
        (check_for_new_packages o).connectAttempted = false ∧
        (check_for_new_packages o).searchAttempted = false ∧
        (check_for_new_packages o).outcomes = [] ∧
        (check_for_new_packages o).escaped = none)) := by
  constructor
  · intro h
    refine ⟨load_config_eq_ok e h, ?_, ?_, ?_, ?_, ?_, ?_, ?_, ?_⟩
    · exact some_getD_of_blank_false _ (blank_false_of_missingNil e h
        "imap_server" e.IMAP_SERVER (by simp [envPairs]))
    · exact some_getD_of_blank_false _ (blank_false_of_missingNil e h
        "email_address" e.EMAIL_ADDRESS (by simp [envPairs]))
    · exact some_getD_of_blank_false _ (blank_false_of_missingNil e h
        "email_password" e.EMAIL_APP_PASSWORD (by simp [envPairs]))
    · exact some_getD_of_blank_false _ (blank_false_of_missingNil e h
        "sender_address" e.SENDER_ADDRESS (by simp [envPairs]))
    · exact some_getD_of_blank_false _ (blank_false_of_missingNil e h
        "form_url" e.FORM_URL (by simp [envPairs]))
    · exact some_getD_of_blank_false _ (blank_false_of_missingNil e h
        "first_name" e.FIRST_NAME (by simp [envPairs]))
    · exact some_getD_of_blank_false _ (blank_false_of_missingNil e h
        "last_name" e.LAST_NAME (by simp [envPairs]))
    · exact some_getD_of_blank_false _ (blank_false_of_missingNil e h
        "room_number" e.ROOM_NUMBER (by simp [envPairs]))
  · intro h
    refine ⟨load_config_eq_error e h, ?_, ?_⟩
    · intro k v hm hb
      have hk : k ∈ sortStrings (missingNames e) :=
        (mem_sortStrings k _).mpr (mem_missingNames_of_blank e k v hm hb)
      simp only [missingMessage, strContains, strToList_append]
      exact containsAt_append_right _ _ _ (strContains_joinComma k _ hk)
    · intro o ho
      unfold check_for_new_packages
      rw [ho, load_config_eq_error e h]
      exact ⟨rfl, rfl, rfl, rfl⟩

/-- C3 witness: with `EMAIL_ADDRESS` unset and `EMAIL_APP_PASSWORD` empty,
loading fails and the message contains both missing keys. -/
theorem config_lists_all_missing_witness :
    strContains
      (missingMessage (missingNames
        ⟨some "imap.example.com", none, some "", some "sender@x.com",
         some "https://form", some "Jo", some "Doe", some "12"⟩))
      "email_address" = true ∧
    strContains
      (missingMessage (missingNames
        ⟨some "imap.example.com", none, some "", some "sender@x.com",
         some "https://form", some "Jo", some "Doe", some "12"⟩))
      "email_password" = true ∧
    load_config
      ⟨some "imap.example.com", none, some "", some "sender@x.com",
       some "https://form", some "Jo", some "Doe", some "12"⟩ =
      .error "Missing required configuration values: email_address, email_password" := by
  have h := (config_lists_all_missing_or_builds_exact
    ⟨some "imap.example.com", none, some "", some "sender@x.com",
     some "https://form", some "Jo", some "Doe", some "12"⟩).2 (by decide)
  refine ⟨?_, ?_, ?_⟩
  · exact h.2.1 "email_address" none (by simp [envPairs]) rfl
  · exact h.2.1 "email_password" (some "") (by simp [envPairs]) rfl
  · rw [h.1]
    exact congrArg Except.error (by decide)

/-- C4 counterexample: a document whose only marker node is a bold `<b>`
element with non-empty following text; the claim says parsing locates
bold/strong nodes and returns the trimmed sibling, but the source's
`soup.find("strong", ...)` never considers `<b>`, so parsing returns
nothing. -/
theorem parse_bold_node_counterexample :
    isBoldOrStrongMarker ⟨"b", some "TRACKING NO:", some " ABC123"⟩ = true ∧
    trimmedSibling ⟨"b", some "TRACKING NO:", some " ABC123"⟩ = "ABC123" ∧
    parse_package_info [⟨"b", some "TRACKING NO:", some " ABC123"⟩] = none := by
  refine ⟨by decide, by decide, by decide⟩

/-- C4 amended: tracking-number parsing locates the first `<strong>` (not
`<b>`) text node whose text case-insensitively contains `"TRACKING NO:"`;
when such a node exists and its next-sibling content is non-empty after
trimming, parsing returns that trimmed sibling text unvalidated. -/
theorem parse_locates_first_strong_marker (pre post : List HtmlNode)
    (n : HtmlNode) (hpre : ∀ m ∈ pre, isTrackingTag m = false)
    (hn : isTrackingTag n = true) (hs : trimmedSibling n ≠ "") :
    parse_package_info (pre ++ n :: post) = some ⟨trimmedSibling n⟩ := by
  rw [parse_package_info_at pre post n hpre hn, if_neg hs]

/-- C4 amended witness: a `<b>` marker node is passed over, the following
`<strong>` marker node is located, and its sibling is returned trimmed
without format validation. -/
theorem parse_locates_first_strong_marker_witness :
    parse_package_info
      [⟨"b", some "TRACKING NO:", some " IGNORED"⟩,
       ⟨"strong", some "Tracking No:", some "  ZX-9?!  "⟩,
       ⟨"strong", some "TRACKING NO:", some "LATER"⟩] =
      some ⟨"ZX-9?!"⟩ := by
  have h := parse_locates_first_strong_marker
    [⟨"b", some "TRACKING NO:", some " IGNORED"⟩]
    [⟨"strong", some "TRACKING NO:", some "LATER"⟩]
    ⟨"strong", some "Tracking No:", some "  ZX-9?!  "⟩
    (by decide) (by decide) (by decide)
  simpa using h

/-- C5 counterexample: a fragment containing a bold/strong node whose text
is exactly `"Tracking No: ABC123"`; the claim says the parser extracts
`"ABC123"`, but the source takes the node's next sibling, which does not
exist here, so parsing returns nothing. -/
theorem parse_inline_number_counterexample :
    (⟨"strong", some "Tracking No: ABC123", none⟩ : HtmlNode).tag
        = "strong" ∧
    (⟨"strong", some "Tracking No: ABC123", none⟩ : HtmlNode).str
        = some "Tracking No: ABC123" ∧
    parse_package_info [⟨"strong", some "Tracking No: ABC123", none⟩]
        ≠ some ⟨"ABC123"⟩ ∧
    parse_package_info [⟨"strong", some "Tracking No: ABC123", none⟩]
        = none := by
  refine ⟨rfl, rfl, by decide, by decide⟩

/-- C5 amended: for every fragment whose first marker-bearing `<strong>`
node carries the label (in any letter case) and is followed by sibling text
that trims to `"ABC123"`, the parser extracts `"ABC123"`. -/
theorem parse_extracts_abc123 (pre post : List HtmlNode) (t s : String)
    (hpre : ∀ m ∈ pre, isTrackingTag m = false)
    (ht : markerMatch (some t) = true) (hne : s ≠ "")
    (hs : strTrim s = "ABC123") :
    parse_package_info (pre ++ ⟨"strong", some t, some s⟩ :: post) =
      some ⟨"ABC123"⟩ := by
  have hn : isTrackingTag ⟨"strong", some t, some s⟩ = true := by
    simp [isTrackingTag, ht]
  have htrim : trimmedSibling ⟨"strong", some t, some s⟩ = "ABC123" := by
    simp [trimmedSibling, hne, hs]
  rw [parse_package_info_at pre post _ hpre hn, htrim]
  simp

/-- C5 amended witness: a mixed-case label followed by a whitespace-padded
sibling yields `"ABC123"`. -/
theorem parse_extracts_abc123_witness :
    parse_package_info
      [⟨"strong", some "tRaCkInG nO:", some "  ABC123 "⟩] =
      some ⟨"ABC123"⟩ := by
  have h := parse_extracts_abc123 [] [] "tRaCkInG nO:" "  ABC123 "
    (by intro m hm; simp at hm) (by decide) (by decide) (by decide)
  simpa using h

/-- C6: when no bold/strong node carries the marker, or every such node's
following text is empty after trimming, parsing reports "not found" (the
embedding is total, so no exception is possible). -/
theorem parse_soft_failure (doc : HtmlDoc)
    (h : (∀ n ∈ doc, isBoldOrStrongMarker n = false) ∨
         (∀ n ∈ doc, isBoldOrStrongMarker n = true → trimmedSibling n = "")) :
    parse_package_info doc = none := by
  rcases h with h | h
  · have hfind : List.find? isTrackingTag doc = none := by
      rw [List.find?_eq_none]
      intro n hn hcontra
      have := bold_of_isTrackingTag n hcontra
      rw [h n hn] at this
      exact Bool.false_ne_true this
    simp [parse_package_info, hfind]
  · cases hfind : List.find? isTrackingTag doc with
    | none => simp [parse_package_info, hfind]
    | some tag =>
      have hmem : tag ∈ doc := List.mem_of_find?_eq_some hfind
      have htag : isTrackingTag tag = true := List.find?_some hfind
      have htrim : trimmedSibling tag = "" :=
        h tag hmem (bold_of_isTrackingTag tag htag)
      simp [parse_package_info, hfind, htrim]

/-- C6 witness: a document with the marker only outside bold/strong nodes,
and one whose strong marker node has blank following text, both parse to
"not found". -/
theorem parse_soft_failure_witness :
    parse_package_info [⟨"p", some "TRACKING NO:", some "X1"⟩] = none ∧
    parse_package_info [⟨"strong", some "Tracking No:", some "   "⟩] = none := by
  constructor
  · exact parse_soft_failure _ (Or.inl (by decide))
  · exact parse_soft_failure _ (Or.inr (by decide))

/-- C7: HTML body extraction scans a multipart message's parts in walk order
and returns the decoded payload of the first `text/html` part (in particular
an HTML part after a plain-text part wins over the plain text); a
non-multipart message gets the same content-type test and decode applied to
itself; and extraction returns no content when no HTML part exists. -/
theorem extract_returns_first_html_part :
    (∀ (dec : String → List Nat → Option String) (u8r : List Nat → String)
       (ct : String) (parts : List EmailMessage)
       (pre post : List EmailMessage) (p : EmailMessage),
       walk (.multi ct parts) = pre ++ p :: post →
       (∀ q ∈ pre, getContentType q ≠ "text/html") →
       getContentType p = "text/html" →
       extract_html_body dec u8r (.multi ct parts) =
         some (decodePart dec u8r (getCharset p) (getPayloadBytes p))) ∧
    (∀ (dec : String → List Nat → Option String) (u8r : List Nat → String)
       (cs : Option String) (pl : List Nat),
       extract_html_body dec u8r (.leaf "text/html" cs pl) =
         some (decodePart dec u8r cs pl)) ∧
    (∀ (dec : String → List Nat → Option String) (u8r : List Nat → String)
       (ct : String) (cs : Option String) (pl : List Nat),
       ct ≠ "text/html" →
       extract_html_body dec u8r (.leaf ct cs pl) = none) ∧
    (∀ (dec : String → List Nat → Option String) (u8r : List Nat → String)
       (m : EmailMessage),
       (∀ q ∈ walk m, getContentType q ≠ "text/html") →
       extract_html_body dec u8r m = none) := by
  refine ⟨?_, ?_, ?_, ?_⟩
  · intro dec u8r ct parts pre post p hwalk hpre hp
    exact extract_html_body_multi_at dec u8r ct parts pre post p hwalk hpre hp
  · intro dec u8r cs pl
    simp [extract_html_body]
  · intro dec u8r ct cs pl hct
    simp [extract_html_body, hct]
  · intro dec u8r m hnone
    cases m with
    | leaf ct cs pl =>
      have : ct ≠ "text/html" := by
        have := hnone (.leaf ct cs pl) (by simp [walk])
        simpa [getContentType] using this
      simp [extract_html_body, this]
    | multi ct parts =>
      have hfind : List.find? (fun q => getContentType q = "text/html")
          (walk (.multi ct parts)) = none := by
        rw [List.find?_eq_none]
        intro q hq
        simp [hnone q hq]
      simp [extract_html_body, hfind]

/-- C7 witness: in a multipart message with a plain-text part before an HTML
part, extraction returns the HTML part's decoded content. -/
theorem extract_returns_first_html_part_witness :
    extract_html_body (fun cs _ => some ("decoded:" ++ cs)) (fun _ => "R")
      (.multi "multipart/alternative"
        [.leaf "text/plain" (some "us-ascii") [104, 105],
         .leaf "text/html" (some "utf-8") [60, 98, 62]]) =
      some "decoded:utf-8" := by
  have h := extract_returns_first_html_part.1
    (fun cs _ => some ("decoded:" ++ cs)) (fun _ => "R")
    "multipart/alternative"
    [.leaf "text/plain" (some "us-ascii") [104, 105],
     .leaf "text/html" (some "utf-8") [60, 98, 62]]
    [.multi "multipart/alternative"
       [.leaf "text/plain" (some "us-ascii") [104, 105],
        .leaf "text/html" (some "utf-8") [60, 98, 62]],
     .leaf "text/plain" (some "us-ascii") [104, 105]]
    []
    (.leaf "text/html" (some "utf-8") [60, 98, 62])
    rfl (by decide) rfl
  simpa [decodePart, effectiveCharset, getCharset, getPayloadBytes] using h

/-- C8: when the declared charset of an HTML part is invalid or its payload
fails to decode (the decode capability yields nothing), extraction does not
fail: it returns the permissive UTF-8 replacement decode of the payload —
both for a bare HTML message and for the first HTML part of a multipart
message. -/
theorem extract_falls_back_to_replacement :
    (∀ (dec : String → List Nat → Option String) (u8r : List Nat → String)
       (cs : Option String) (pl : List Nat),
       dec (effectiveCharset cs) pl = none →
       extract_html_body dec u8r (.leaf "text/html" cs pl) = some (u8r pl)) ∧
    (∀ (dec : String → List Nat → Option String) (u8r : List Nat → String)
       (ct : String) (parts : List EmailMessage)
       (pre post : List EmailMessage) (p : EmailMessage),
       walk (.multi ct parts) = pre ++ p :: post →
       (∀ q ∈ pre, getContentType q ≠ "text/html") →
       getContentType p = "text/html" →
       dec (effectiveCharset (getCharset p)) (getPayloadBytes p) = none →
       extract_html_body dec u8r (.multi ct parts) =
         some (u8r (getPayloadBytes p))) := by
  constructor
  · intro dec u8r cs pl hdec
    simp [extract_html_body, decodePart, hdec]
  · intro dec u8r ct parts pre post p hwalk hpre hp hdec
    rw [extract_html_body_multi_at dec u8r ct parts pre post p hwalk hpre hp]
    simp [decodePart, hdec]

/-- C8 witness: an HTML part declaring an unknown charset decodes to the
replacement fallback instead of failing. -/
theorem extract_falls_back_to_replacement_witness :
    (fun _ _ => (none : Option String)) (effectiveCharset (some "bogus"))
      ([1, 2] : List Nat) = none ∧
    extract_html_body (fun _ _ => none) (fun pl => "replaced:" ++ toString pl.length)
      (.leaf "text/html" (some "bogus") [1, 2]) = some "replaced:2" := by
  refine ⟨rfl, ?_⟩
  have h := extract_falls_back_to_replacement.1 (fun _ _ => none)
    (fun pl => "replaced:" ++ toString pl.length) (some "bogus") [1, 2] rfl
  simpa using h

/-! ## Concrete run environments used by the orchestrator witnesses -/

/-- A concrete HTML leaf message. -/
def sampleHtmlMsg : EmailMessage := .leaf "text/html" (some "utf-8") [60, 98, 62]

/-- A concrete soup capability: every body parses to one strong marker node
followed by a padded tracking number. -/
def sampleSoup : String → HtmlDoc :=
  fun _ => [⟨"strong", some "Tracking No:", some " PKG42 "⟩]

/-- A concrete decode capability that always succeeds. -/
def sampleDec : String → List Nat → Option String := fun _ _ => some "<b>"

/-- A concrete replacement decode. -/
def sampleU8r : List Nat → String := fun _ => "replaced"

/-- An environment with all eight values present and non-empty. -/
def sampleEnv : EnvMap :=
  ⟨some "imap.example.com", some "me@x.com", some "pw", some "sender@x.com",
   some "https://form", some "Jo", some "Doe", some "12"⟩

/-- A run with two messages: the first's fetch fails, the second goes all
the way through form submission and store. -/
def sampleRun : OrchEnv :=
  ⟨sampleEnv, true, true, [1, 2],
   (fun id => if id = 1 then ⟨none, true, true⟩
              else ⟨some sampleHtmlMsg, true, true⟩),
   true, true, sampleDec, sampleU8r, sampleSoup⟩

/-- A run with one message whose Seen store raises. -/
def sampleRaise : OrchEnv :=
  ⟨sampleEnv, true, true, [7],
   (fun _ => ⟨some sampleHtmlMsg, true, false⟩),
   true, true, sampleDec, sampleU8r, sampleSoup⟩

/-! ## Orchestrator claims -/

/-- C1: for every message processed in a run, the Seen-flag store call is
performed exactly when the whole fetch → extract → parse → submit pipeline
for that message succeeds; on a fetch failure, missing HTML, missing
tracking number or submission error no store call is made, and since the
fetch itself uses `BODY.PEEK`, the unread flag is untouched. -/
theorem mark_read_iff_submit_succeeds (o : OrchEnv)
    (hc : missingNames o.env = []) (hk : o.connectOk = true)
    (hs : o.searchOk = true) (i : Nat) (r : StepResult)
    (hr : (check_for_new_packages o).outcomes.get? i = some r) :
    ∃ msgId, o.messageIds.get? i = some msgId ∧
      storePerformed r = submitSucceeds o.dec o.u8r o.soup (o.perMsg msgId) := by
  rw [check_run o hc hk hs] at hr
  obtain ⟨e, he, hre⟩ := runLoop_fst_get? o.dec o.u8r o.soup _ i r hr
  rw [List.get?_map] at he
  cases hid : o.messageIds.get? i with
  | none => rw [hid] at he; simp at he
  | some msgId =>
    rw [hid] at he
    simp only [Option.map] at he
    refine ⟨msgId, rfl, ?_⟩
    rw [hre, (Option.some.injEq _ _).mp he.symm]
    exact storePerformed_stepOf o.dec o.u8r o.soup (o.perMsg msgId)

/-- C1 witness: in the two-message sample run the first message (failed
fetch) gets no store call and the second (full success) gets one. -/
theorem mark_read_iff_submit_succeeds_witness :
    (∃ msgId, sampleRun.messageIds.get? 0 = some msgId ∧
      storePerformed .skipped =
        submitSucceeds sampleRun.dec sampleRun.u8r sampleRun.soup
          (sampleRun.perMsg msgId)) ∧
    (∃ msgId, sampleRun.messageIds.get? 1 = some msgId ∧
      storePerformed .marked =
        submitSucceeds sampleRun.dec sampleRun.u8r sampleRun.soup
          (sampleRun.perMsg msgId)) := by
  constructor
  · exact mark_read_iff_submit_succeeds sampleRun (by decide) rfl rfl 0
      .skipped (by decide)
  · exact mark_read_iff_submit_succeeds sampleRun (by decide) rfl rfl 1
      .marked (by decide)

/-- C2: in a run whose Seen stores do not raise, every searched message is
processed in search order — each contributing exactly its own step outcome —
so a fetch/HTML/tracking/submission failure on one message skips only that
message and the rest of the list is still handled. -/
theorem per_message_failures_skip_only_themselves (o : OrchEnv)
    (hc : missingNames o.env = []) (hk : o.connectOk = true)
    (hs : o.searchOk = true)
    (hstore : ∀ id ∈ o.messageIds, (o.perMsg id).storeOk = true) :
    (check_for_new_packages o).outcomes =
      o.messageIds.map (fun id => stepOf o.dec o.u8r o.soup (o.perMsg id)) ∧
    (check_for_new_packages o).outcomes.length = o.messageIds.length := by
  rw [check_run o hc hk hs]
  have hloop := runLoop_no_raise o.dec o.u8r o.soup (o.messageIds.map o.perMsg)
    (by
      intro e he
      rw [List.mem_map] at he
      obtain ⟨id, hid, heq⟩ := he
      rw [← heq]
      exact stepOf_ne_raise_of_storeOk o.dec o.u8r o.soup (o.perMsg id)
        (hstore id hid))
  simp [hloop, List.map_map, Function.comp]

/-- C2 witness: in the sample run the first message's fetch failure skips
only that message; the second is still processed and marked. -/
theorem per_message_failures_skip_only_themselves_witness :
    (check_for_new_packages sampleRun).outcomes = [.skipped, .marked] ∧
    (check_for_new_packages sampleRun).outcomes.length = 2 := by
  have h := per_message_failures_skip_only_themselves sampleRun (by decide)
    rfl rfl (by decide)
  refine ⟨?_, by rw [h.2]; rfl⟩
  rw [h.1]
  decide

/-- C9: once the mailbox connection is established, the `finally` block
always calls `mail.close()` and `mail.logout()` — also when the search
returns no messages, raises, or a later step fails — and an error from the
close call is swallowed: the run's escaping error never depends on whether
close succeeded. -/
theorem cleanup_always_runs_and_close_errors_swallowed (o : OrchEnv)
    (hc : missingNames o.env = []) (hk : o.connectOk = true) :
    (check_for_new_packages o).closeAttempted = true ∧
    (check_for_new_packages o).logoutAttempted = true ∧
    ∀ b, (check_for_new_packages (withCloseOk o b)).escaped =
      (check_for_new_packages o).escaped := by
  by_cases hs : o.searchOk = true
  · rw [check_run o hc hk hs]
    refine ⟨rfl, rfl, ?_⟩
    intro b
    rw [check_run (withCloseOk o b) hc hk hs]
    rfl
  · have hs2 : o.searchOk = false := by simpa using hs
    have hshape : ∀ b, check_for_new_packages (withCloseOk o b) =
        check_for_new_packages o := by
      intro b
      unfold check_for_new_packages
      rw [show (withCloseOk o b).env = o.env from rfl,
        load_config_eq_ok o.env hc]
      simp [withCloseOk, hk, hs2]
    constructor
    · unfold check_for_new_packages
      rw [load_config_eq_ok o.env hc]
      simp [hk, hs2]
    constructor
    · unfold check_for_new_packages
      rw [load_config_eq_ok o.env hc]
      simp [hk, hs2]
    · intro b
      rw [hshape b]

/-- C9 witness: in the sample run cleanup is attempted and a failing close
changes nothing about what escapes. -/
theorem cleanup_always_runs_witness :
    (check_for_new_packages sampleRun).closeAttempted = true ∧
    (check_for_new_packages (withCloseOk sampleRun false)).escaped =
      (check_for_new_packages sampleRun).escaped := by
  have h := cleanup_always_runs_and_close_errors_swallowed sampleRun
    (by decide) rfl
  exact ⟨h.1, h.2.2 false⟩

/-- C10: when the Seen store raises after a successful submission for the
message at position `nAbort`, the loop stops there — earlier messages keep
their outcomes, no later message is processed — the cleanup still closes and
logs out, and the store error escapes the orchestrator. -/
theorem store_failure_aborts_loop_after_cleanup (o : OrchEnv)
    (hc : missingNames o.env = []) (hk : o.connectOk = true)
    (hs : o.searchOk = true) (hlog : o.logoutOk = true)
    (nAbort : Nat) (abortId : Nat)
    (hget : o.messageIds.get? nAbort = some abortId)
    (hstep : stepOf o.dec o.u8r o.soup (o.perMsg abortId) = .storeRaised)
    (hprev : ∀ i id, i < nAbort → o.messageIds.get? i = some id →
      stepOf o.dec o.u8r o.soup (o.perMsg id) ≠ .storeRaised) :
    (check_for_new_packages o).outcomes =
      ((o.messageIds.take nAbort).map
        (fun id => stepOf o.dec o.u8r o.soup (o.perMsg id))) ++
        [.storeRaised] ∧
    (check_for_new_packages o).outcomes.length = nAbort + 1 ∧
    (check_for_new_packages o).closeAttempted = true ∧
    (check_for_new_packages o).logoutAttempted = true ∧
    (check_for_new_packages o).escaped = some .storeFailed := by
  rw [check_run o hc hk hs]
  have hget2 : (o.messageIds.map o.perMsg).get? nAbort =
      some (o.perMsg abortId) := by
    rw [List.get?_map, hget]
    rfl
  have hprev2 : ∀ i e, i < nAbort →
      (o.messageIds.map o.perMsg).get? i = some e →
      stepOf o.dec o.u8r o.soup e ≠ .storeRaised := by
    intro i e hi he
    rw [List.get?_map] at he
    cases hid : o.messageIds.get? i with
    | none => rw [hid] at he; simp at he
    | some id =>
      rw [hid] at he
      simp only [Option.map] at he
      rw [← (Option.some.injEq _ _).mp he]
      exact hprev i id hi hid
  have hloop := runLoop_raise_at o.dec o.u8r o.soup nAbort
    (o.messageIds.map o.perMsg) (o.perMsg abortId) hget2 hstep hprev2
  have hlt : nAbort < o.messageIds.length := by
    rcases List.get?_eq_some.mp hget with ⟨hl, _⟩
    exact hl
  refine ⟨?_, ?_, rfl, rfl, ?_⟩
  · simp only [hloop]
    rw [← List.map_take, List.map_map]
    rfl
  · simp only [hloop]
    simp [List.length_take, Nat.min_eq_left (Nat.le_of_lt hlt)]
  · simp [hloop, cleanupEscaped, hlog]

/-- C10 witness: a single message whose store raises yields one processed
outcome, attempted cleanup and an escaping store error. -/
theorem store_failure_aborts_loop_witness :
    (check_for_new_packages sampleRaise).outcomes = [.storeRaised] ∧
    (check_for_new_packages sampleRaise).escaped = some .storeFailed := by
  have h := store_failure_aborts_loop_after_cleanup sampleRaise (by decide)
    rfl rfl rfl 0 7 rfl (by decide)
    (fun i id hi _ => absurd hi (Nat.not_lt_zero i))
  refine ⟨?_, h.2.2.2.2⟩
  rw [h.1]
  decide

end Clark
